/-
Verification of the FAIR Risk-Assessment Calculator core
(`fair_calculator.py` and the validation in `app.py`) against its
natural-language specification.

All arithmetic is embedded over `ℚ`.  Python's `round(x, d)` (and numpy's
`np.round`) round half to even; this is `pyRound` below.  Numpy's
`np.percentile` with the default linear-interpolation method is
`npPercentile`.  Sampling from the process-global generator
`np.random.uniform(lo, hi, n)` is embedded by threading the stream of
unit-interval draws explicitly: a function `u : ℕ → ℚ` supplies the raw
draws, and `np.random.uniform(lo, hi, n)` starting at stream offset
`off` produces `lo + (hi - lo) * u (off + i)` for `i < n`, which is how
numpy transforms raw uniform draws (note this is defined, with no error,
even when `lo > hi`).
-/
import Mathlib

/-! ## Python/numpy primitives -/

/-- Round a rational to the nearest integer, ties to even
(the rounding used by Python's `round` and numpy's `np.round`). -/
def rhe (q : ℚ) : ℤ :=
  if q - ⌊q⌋ < 1/2 then ⌊q⌋
  else if 1/2 < q - ⌊q⌋ then ⌊q⌋ + 1
  else if ⌊q⌋ % 2 = 0 then ⌊q⌋ else ⌊q⌋ + 1

/-- Python's `round(q, d)`: round to `d` decimal places, ties to even. -/
def pyRound (d : ℕ) (q : ℚ) : ℚ :=
  (rhe (q * 10 ^ d) : ℚ) / 10 ^ d

/-- `np.mean`: sum divided by length (over `ℚ`). -/
def npMean (xs : List ℚ) : ℚ :=
  xs.sum / xs.length

/-- Linear interpolation into a (sorted) list at fractional index `h`:
`b[⌊h⌋] + (h - ⌊h⌋) * (b[min(⌊h⌋+1, n-1)] - b[⌊h⌋])`. -/
def interpAt (b : List ℚ) (h : ℚ) : ℚ :=
  let i := (⌊h⌋).toNat
  let lo := b.getD i 0
  let hi := b.getD (min (i + 1) (b.length - 1)) 0
  lo + (h - ⌊h⌋) * (hi - lo)

/-- `np.percentile(xs, p)` with the default linear-interpolation method:
sort, then interpolate at virtual index `(n-1) * p/100`. -/
def npPercentile (xs : List ℚ) (p : ℚ) : ℚ :=
  interpAt (List.insertionSort (· ≤ ·) xs) (((xs.length : ℚ) - 1) * p / 100)

/-- Population variance, `np.var`: mean of squared deviations from the mean.
`np.std` is its square root (see `monteStdDev`). -/
def npVar (xs : List ℚ) : ℚ :=
  npMean (xs.map (fun x => (x - npMean xs) ^ 2))

/-! ## The FAIR evaluator (`fair_calculator.py`, class FAIRCalculator) -/

/-- The four scalar inputs held by a `FAIRCalculator` instance. -/
structure FAIRCalculator where
  asset_value : ℚ
  threat_event_frequency : ℚ
  vulnerability : ℚ
  loss_magnitude : ℚ
deriving DecidableEq

/-- `calculate_loss_event_frequency`: LEF = TEF × Vulnerability. -/
def FAIRCalculator.calculate_loss_event_frequency (c : FAIRCalculator) : ℚ :=
  c.threat_event_frequency * c.vulnerability

/-- `calculate_annual_loss_expectancy`: ALE = LEF × Loss Magnitude. -/
def FAIRCalculator.calculate_annual_loss_expectancy (c : FAIRCalculator) : ℚ :=
  c.calculate_loss_event_frequency * c.loss_magnitude

/-- `calculate_single_loss_expectancy`: returns `loss_magnitude`. -/
def FAIRCalculator.calculate_single_loss_expectancy (c : FAIRCalculator) : ℚ :=
  c.loss_magnitude

/-- The dict returned by `calculate_risk_level`. -/
structure RiskLevel where
  level : String
  color : String
  priority : String
deriving DecidableEq

/-- `calculate_risk_level(ale)`: the 4-way threshold classification. -/
def FAIRCalculator.calculate_risk_level (ale : ℚ) : RiskLevel :=
  if ale < 10000 then ⟨"Low", "green", "P4"⟩
  else if ale < 50000 then ⟨"Medium", "yellow", "P3"⟩
  else if ale < 200000 then ⟨"High", "orange", "P2"⟩
  else ⟨"Critical", "red", "P1"⟩

/-- The local `risk_exposure_pct` computed inside `calculate`:
`(ale / asset_value * 100) if asset_value > 0 else 0`. -/
def FAIRCalculator.risk_exposure_pct (c : FAIRCalculator) : ℚ :=
  if 0 < c.asset_value then c.calculate_annual_loss_expectancy / c.asset_value * 100 else 0

/-- The dict returned by `FAIRCalculator.calculate`. -/
structure RiskResults where
  asset_value : ℚ
  threat_event_frequency : ℚ
  vulnerability : ℚ
  loss_magnitude : ℚ
  loss_event_frequency : ℚ
  single_loss_expectancy : ℚ
  annual_loss_expectancy : ℚ
  risk_level : String
  risk_color : String
  risk_priority : String
  risk_exposure_percentage : ℚ
deriving DecidableEq

/-- `FAIRCalculator.calculate`: the complete FAIR risk calculation,
with the boundary rounding applied by the source (2 decimals for currency
fields, 3 for rate/probability fields). -/
def FAIRCalculator.calculate (c : FAIRCalculator) : RiskResults :=
  let lef := c.calculate_loss_event_frequency
  let ale := c.calculate_annual_loss_expectancy
  let sle := c.calculate_single_loss_expectancy
  let risk_level := FAIRCalculator.calculate_risk_level ale
  { asset_value := pyRound 2 c.asset_value
    threat_event_frequency := pyRound 2 c.threat_event_frequency
    vulnerability := pyRound 3 c.vulnerability
    loss_magnitude := pyRound 2 c.loss_magnitude
    loss_event_frequency := pyRound 3 lef
    single_loss_expectancy := pyRound 2 sle
    annual_loss_expectancy := pyRound 2 ale
    risk_level := risk_level.level
    risk_color := risk_level.color
    risk_priority := risk_level.priority
    risk_exposure_percentage := pyRound 2 c.risk_exposure_pct }

/-! ## The HTTP-layer validation (`app.py`, `calculate_risk`) -/

/-- `calculate_risk` in `app.py`: rejects `asset_value <= 0` with a 400
error before constructing the calculator, otherwise returns
`FAIRCalculator(...).calculate()`. -/
def calculate_risk (asset_value threat_event_frequency vulnerability loss_magnitude : ℚ) :
    Except String RiskResults :=
  if asset_value ≤ 0 then Except.error "Asset value must be greater than 0"
  else Except.ok (FAIRCalculator.mk asset_value threat_event_frequency
    vulnerability loss_magnitude).calculate

/-! ## The Monte Carlo simulator (`fair_calculator.py`, monte_carlo_simulation) -/

/-- `np.random.uniform(lo, hi, n)` drawing raw unit-interval samples from
the global stream `u` starting at offset `off`.  numpy computes
`lo + (hi - lo) * draw`, and does not reject `lo > hi`. -/
def uniformSamples (lo hi : ℚ) (n : ℕ) (u : ℕ → ℚ) (off : ℕ) : List ℚ :=
  (List.range n).map (fun i => lo + (hi - lo) * u (off + i))

/-- The ALE sample vector of the simulation:
`tef_samples * vuln_samples * loss_samples` elementwise.  The three
`np.random.uniform` calls happen in order, so they consume stream
offsets `[0, n)`, `[n, 2n)` and `[2n, 3n)`. -/
def aleSamples (tef_range vuln_range loss_range : ℚ × ℚ) (iterations : ℕ)
    (u : ℕ → ℚ) : List ℚ :=
  let tef_samples := uniformSamples tef_range.1 tef_range.2 iterations u 0
  let vuln_samples := uniformSamples vuln_range.1 vuln_range.2 iterations u iterations
  let loss_samples := uniformSamples loss_range.1 loss_range.2 iterations u (2 * iterations)
  let lef_samples := List.zipWith (· * ·) tef_samples vuln_samples
  List.zipWith (· * ·) lef_samples loss_samples

/-- The dict returned by `monte_carlo_simulation` (the percentile dict
keys `'10th'`..`'99th'` are the fields `p10`..`p99`; the
`risk_distribution` sub-dict is the fields `low`..`critical`; the
`confidence_95` sub-dict is `conf_lower`/`conf_upper`).  `std_dev` is
kept outside this record — as the square root of the rational variance it
is irrational in general; see `monteStdDev`. -/
structure SimResult where
  iterations : ℕ
  mean_ale : ℚ
  median_ale : ℚ
  min_ale : ℚ
  max_ale : ℚ
  p10 : ℚ
  p25 : ℚ
  p50 : ℚ
  p75 : ℚ
  p90 : ℚ
  p95 : ℚ
  p99 : ℚ
  low : ℕ
  medium : ℕ
  high : ℕ
  critical : ℕ
  conf_lower : ℚ
  conf_upper : ℚ
deriving DecidableEq

/-- `monte_carlo_simulation`.  No argument is validated: the function
samples, reduces and classifies unconditionally.  `np.min`/`np.max` on an
empty sample vector (iterations = 0) raise a `ValueError` — the only
failure — embedded as `none`; `np.median` equals the linear-interpolation
50th percentile. -/
def FAIRCalculator.monte_carlo_simulation (tef_range vuln_range loss_range : ℚ × ℚ)
    (iterations : ℕ) (u : ℕ → ℚ) : Option SimResult :=
  let ale_samples := aleSamples tef_range vuln_range loss_range iterations u
  match ale_samples.min?, ale_samples.max? with
  | some ale_min, some ale_max =>
    some { iterations := iterations
           mean_ale := pyRound 2 (npMean ale_samples)
           median_ale := pyRound 2 (npPercentile ale_samples 50)
           min_ale := pyRound 2 ale_min
           max_ale := pyRound 2 ale_max
           p10 := pyRound 2 (npPercentile ale_samples 10)
           p25 := pyRound 2 (npPercentile ale_samples 25)
           p50 := pyRound 2 (npPercentile ale_samples 50)
           p75 := pyRound 2 (npPercentile ale_samples 75)
           p90 := pyRound 2 (npPercentile ale_samples 90)
           p95 := pyRound 2 (npPercentile ale_samples 95)
           p99 := pyRound 2 (npPercentile ale_samples 99)
           low := ale_samples.countP (fun a => decide (a < 10000))
           medium := ale_samples.countP (fun a => decide (10000 ≤ a) && decide (a < 50000))
           high := ale_samples.countP (fun a => decide (50000 ≤ a) && decide (a < 200000))
           critical := ale_samples.countP (fun a => decide (200000 ≤ a))
           conf_lower := pyRound 2 (npPercentile ale_samples (5/2))
           conf_upper := pyRound 2 (npPercentile ale_samples (195/2)) }
  | _, _ => none

/-- `np.std(ale_samples)`: the square root of the population variance of
the ALE sample vector (`std_dev` in the returned dict). -/
noncomputable def monteStdDev (tef_range vuln_range loss_range : ℚ × ℚ)
    (iterations : ℕ) (u : ℕ → ℚ) : ℝ :=
  Real.sqrt (npVar (aleSamples tef_range vuln_range loss_range iterations u))

/-! ## Rounding lemmas -/

lemma rhe_ge_floor (q : ℚ) : ⌊q⌋ ≤ rhe q := by
  unfold rhe; split_ifs <;> omega

lemma rhe_le_floor_add_one (q : ℚ) : rhe q ≤ ⌊q⌋ + 1 := by
  unfold rhe; split_ifs <;> omega

lemma rhe_mono {x y : ℚ} (h : x ≤ y) : rhe x ≤ rhe y := by
  by_cases hf : ⌊x⌋ = ⌊y⌋
  · unfold rhe
    rw [hf]
    have hr : x - (⌊y⌋ : ℚ) ≤ y - (⌊y⌋ : ℚ) := by linarith
    split_ifs <;> first | omega | linarith
  · have hlt : ⌊x⌋ < ⌊y⌋ := lt_of_le_of_ne (Int.floor_le_floor h) hf
    calc rhe x ≤ ⌊x⌋ + 1 := rhe_le_floor_add_one x
      _ ≤ ⌊y⌋ := by omega
      _ ≤ rhe y := rhe_ge_floor y

lemma pyRound_mono (d : ℕ) {x y : ℚ} (h : x ≤ y) : pyRound d x ≤ pyRound d y := by
  unfold pyRound
  have hp : (0:ℚ) < 10 ^ d := by positivity
  have hm : x * 10 ^ d ≤ y * 10 ^ d := by
    exact mul_le_mul_of_nonneg_right h (le_of_lt hp)
  exact (div_le_div_iff_of_pos_right hp).mpr (Int.cast_le.mpr (rhe_mono hm))

/-! ## Sorted-list and interpolation lemmas -/

lemma sorted_getD_mono {b : List ℚ} (hb : List.Sorted (· ≤ ·) b) {i j : ℕ}
    (hij : i ≤ j) (hj : j < b.length) : b.getD i 0 ≤ b.getD j 0 := by
  have hi : i < b.length := lt_of_le_of_lt hij hj
  rw [List.getD_eq_getElem?_getD, List.getD_eq_getElem?_getD,
    List.getElem?_eq_getElem hi, List.getElem?_eq_getElem hj]
  simpa using hb.rel_get_of_le (a := ⟨i, hi⟩) (b := ⟨j, hj⟩) hij

lemma interpAt_ge {b : List ℚ} (hb : List.Sorted (· ≤ ·) b) {h : ℚ}
    (h0 : 0 ≤ h) (h1 : h ≤ (b.length : ℚ) - 1) :
    b.getD (⌊h⌋).toNat 0 ≤ interpAt b h := by
  have hn : 1 ≤ b.length := by
    by_contra hc
    push_neg at hc
    interval_cases hlen : b.length
    · simp [hlen] at h1; linarith
  have hfl0 : 0 ≤ ⌊h⌋ := Int.le_floor.mpr (by exact_mod_cast h0)
  have hfl1 : ⌊h⌋ ≤ (b.length : ℤ) - 1 := by
    have := Int.floor_le_floor h1
    simpa using this
  have hile : (⌊h⌋).toNat ≤ b.length - 1 := by omega
  have hjlt : min ((⌊h⌋).toNat + 1) (b.length - 1) < b.length := by omega
  have hlohi : b.getD (⌊h⌋).toNat 0 ≤ b.getD (min ((⌊h⌋).toNat + 1) (b.length - 1)) 0 :=
    sorted_getD_mono hb (by omega) hjlt
  have hg0 : 0 ≤ h - ⌊h⌋ := by
    have := Int.floor_le h
    linarith
  simp only [interpAt]
  nlinarith [mul_nonneg hg0 (sub_nonneg.mpr hlohi)]

lemma interpAt_le {b : List ℚ} (hb : List.Sorted (· ≤ ·) b) {h : ℚ}
    (h0 : 0 ≤ h) (h1 : h ≤ (b.length : ℚ) - 1) :
    interpAt b h ≤ b.getD (min ((⌊h⌋).toNat + 1) (b.length - 1)) 0 := by
  have hn : 1 ≤ b.length := by
    by_contra hc
    push_neg at hc
    interval_cases hlen : b.length
    · simp [hlen] at h1; linarith
  have hfl0 : 0 ≤ ⌊h⌋ := Int.le_floor.mpr (by exact_mod_cast h0)
  have hfl1 : ⌊h⌋ ≤ (b.length : ℤ) - 1 := by
    have := Int.floor_le_floor h1
    simpa using this
  have hjlt : min ((⌊h⌋).toNat + 1) (b.length - 1) < b.length := by omega
  have hlohi : b.getD (⌊h⌋).toNat 0 ≤ b.getD (min ((⌊h⌋).toNat + 1) (b.length - 1)) 0 :=
    sorted_getD_mono hb (by omega) hjlt
  have hg1 : h - ⌊h⌋ ≤ 1 := by
    have := le_of_lt (Int.lt_floor_add_one h)
    push_cast at this
    linarith
  simp only [interpAt]
  nlinarith [mul_le_mul_of_nonneg_right hg1 (sub_nonneg.mpr hlohi)]

lemma interpAt_mono {b : List ℚ} (hb : List.Sorted (· ≤ ·) b) {h h' : ℚ}
    (h0 : 0 ≤ h) (hh : h ≤ h') (h1 : h' ≤ (b.length : ℚ) - 1) :
    interpAt b h ≤ interpAt b h' := by
  have h1' : h ≤ (b.length : ℚ) - 1 := le_trans hh h1
  have h0' : 0 ≤ h' := le_trans h0 hh
  have hn : 1 ≤ b.length := by
    by_contra hc
    push_neg at hc
    interval_cases hlen : b.length
    · simp [hlen] at h1; linarith
  have hfl0 : 0 ≤ ⌊h⌋ := Int.le_floor.mpr (by exact_mod_cast h0)
  have hfl0' : 0 ≤ ⌊h'⌋ := Int.le_floor.mpr (by exact_mod_cast h0')
  have hfl1 : ⌊h⌋ ≤ (b.length : ℤ) - 1 := by simpa using Int.floor_le_floor h1'
  have hfl1' : ⌊h'⌋ ≤ (b.length : ℤ) - 1 := by simpa using Int.floor_le_floor h1
  by_cases hf : ⌊h⌋ = ⌊h'⌋
  · simp only [interpAt, hf]
    have hjlt : min ((⌊h'⌋).toNat + 1) (b.length - 1) < b.length := by omega
    have hlohi : b.getD (⌊h'⌋).toNat 0 ≤ b.getD (min ((⌊h'⌋).toNat + 1) (b.length - 1)) 0 :=
      sorted_getD_mono hb (by omega) hjlt
    nlinarith [mul_le_mul_of_nonneg_right (show h - (⌊h'⌋ : ℚ) ≤ h' - (⌊h'⌋ : ℚ) by linarith)
      (sub_nonneg.mpr hlohi)]
  · have hfl : ⌊h⌋ < ⌊h'⌋ := lt_of_le_of_ne (Int.floor_le_floor hh) hf
    calc interpAt b h ≤ b.getD (min ((⌊h⌋).toNat + 1) (b.length - 1)) 0 := interpAt_le hb h0 h1'
      _ ≤ b.getD (⌊h'⌋).toNat 0 := sorted_getD_mono hb (by omega) (by omega)
      _ ≤ interpAt b h' := interpAt_ge hb h0' h1

lemma interpAt_zero (b : List ℚ) : interpAt b 0 = b.getD 0 0 := by
  simp [interpAt]

lemma interpAt_last {b : List ℚ} (hn : 1 ≤ b.length) :
    interpAt b ((b.length : ℚ) - 1) = b.getD (b.length - 1) 0 := by
  have hcast : ((b.length : ℚ) - 1) = ((b.length - 1 : ℕ) : ℚ) := by
    rw [Nat.cast_sub hn]; norm_num
  simp only [interpAt, hcast, Int.floor_natCast, Int.toNat_natCast]
  have hmin : min (b.length - 1 + 1) (b.length - 1) = b.length - 1 := by omega
  rw [hmin]
  push_cast
  ring

lemma npPercentile_mono {xs : List ℚ} (hn : 1 ≤ xs.length) {p q : ℚ}
    (h0 : 0 ≤ p) (hpq : p ≤ q) (hq : q ≤ 100) : npPercentile xs p ≤ npPercentile xs q := by
  unfold npPercentile
  have hb := List.sorted_insertionSort (· ≤ ·) xs
  have hlen : (List.insertionSort (· ≤ ·) xs).length = xs.length :=
    List.length_insertionSort (· ≤ ·) xs
  have hlq : (0:ℚ) ≤ (xs.length : ℚ) - 1 := by
    have : (1:ℚ) ≤ (xs.length : ℚ) := by exact_mod_cast hn
    linarith
  apply interpAt_mono hb
  · positivity
  · exact (div_le_div_iff_of_pos_right (by norm_num : (0:ℚ) < 100)).mpr
      (mul_le_mul_of_nonneg_left hpq hlq)
  · rw [hlen]
    rw [div_le_iff₀ (by norm_num : (0:ℚ) < 100)]
    nlinarith

lemma npPercentile_zero (xs : List ℚ) :
    npPercentile xs 0 = (List.insertionSort (· ≤ ·) xs).getD 0 0 := by
  simp [npPercentile, interpAt_zero]

lemma npPercentile_hundred {xs : List ℚ} (hn : 1 ≤ xs.length) :
    npPercentile xs 100 = (List.insertionSort (· ≤ ·) xs).getD (xs.length - 1) 0 := by
  have hlen : (List.insertionSort (· ≤ ·) xs).length = xs.length :=
    List.length_insertionSort (· ≤ ·) xs
  unfold npPercentile
  rw [show ((xs.length : ℚ) - 1) * 100 / 100 = (xs.length : ℚ) - 1 by ring]
  rw [← hlen] at hn ⊢
  exact interpAt_last hn

instance : Std.Antisymm (fun (a b : ℚ) => a ≤ b) := ⟨fun h1 h2 => le_antisymm h1 h2⟩

lemma getD_eq_getElem {b : List ℚ} {k : ℕ} (hk : k < b.length) : b.getD k 0 = b[k] := by
  rw [List.getD_eq_getElem?_getD, List.getElem?_eq_getElem hk, Option.getD_some]

lemma min?_eq_sorted_head {xs : List ℚ} {m : ℚ} (h : xs.min? = some m) :
    m = (List.insertionSort (· ≤ ·) xs).getD 0 0 := by
  obtain ⟨hm, hle⟩ := (List.min?_eq_some_iff (fun a => le_refl a)
    (fun a b => min_choice a b) (fun a b c => le_min_iff)).mp h
  have hperm : (List.insertionSort (· ≤ ·) xs).Perm xs := List.perm_insertionSort (· ≤ ·) xs
  have hsort := List.sorted_insertionSort (· ≤ ·) xs
  have hmb : m ∈ List.insertionSort (· ≤ ·) xs := hperm.mem_iff.mpr hm
  have hn : 0 < (List.insertionSort (· ≤ ·) xs).length := List.length_pos.mpr
    (List.ne_nil_of_mem hmb)
  obtain ⟨k, hk, hkeq⟩ := List.getElem_of_mem hmb
  have h1 : (List.insertionSort (· ≤ ·) xs).getD 0 0 ≤ m := by
    rw [← hkeq, ← getD_eq_getElem hk]
    exact sorted_getD_mono hsort (Nat.zero_le k) hk
  have h2 : m ≤ (List.insertionSort (· ≤ ·) xs).getD 0 0 := by
    apply hle
    rw [getD_eq_getElem hn]
    exact hperm.mem_iff.mp (List.getElem_mem hn)
  exact le_antisymm h2 h1

lemma max?_eq_sorted_last {xs : List ℚ} {m : ℚ} (h : xs.max? = some m) :
    m = (List.insertionSort (· ≤ ·) xs).getD (xs.length - 1) 0 := by
  obtain ⟨hm, hle⟩ := (List.max?_eq_some_iff (fun a => le_refl a)
    (fun a b => max_choice a b) (fun a b c => max_le_iff)).mp h
  have hperm : (List.insertionSort (· ≤ ·) xs).Perm xs := List.perm_insertionSort (· ≤ ·) xs
  have hsort := List.sorted_insertionSort (· ≤ ·) xs
  have hlen : (List.insertionSort (· ≤ ·) xs).length = xs.length :=
    List.length_insertionSort (· ≤ ·) xs
  have hmb : m ∈ List.insertionSort (· ≤ ·) xs := hperm.mem_iff.mpr hm
  have hn : 0 < (List.insertionSort (· ≤ ·) xs).length := List.length_pos.mpr
    (List.ne_nil_of_mem hmb)
  have hlast : xs.length - 1 < (List.insertionSort (· ≤ ·) xs).length := by omega
  obtain ⟨k, hk, hkeq⟩ := List.getElem_of_mem hmb
  have h1 : m ≤ (List.insertionSort (· ≤ ·) xs).getD (xs.length - 1) 0 := by
    rw [← hkeq, ← getD_eq_getElem hk]
    exact sorted_getD_mono hsort (by omega) hlast
  have h2 : (List.insertionSort (· ≤ ·) xs).getD (xs.length - 1) 0 ≤ m := by
    apply hle
    rw [getD_eq_getElem hlast]
    exact hperm.mem_iff.mp (List.getElem_mem hlast)
  exact le_antisymm h1 h2

lemma min?_length_pos {xs : List ℚ} {m : ℚ} (h : xs.min? = some m) : 1 ≤ xs.length := by
  have hm := ((List.min?_eq_some_iff (fun a => le_refl a)
    (fun a b => min_choice a b) (fun a b c => le_min_iff)).mp h).1
  exact List.length_pos.mpr (List.ne_nil_of_mem hm)

lemma min_le_npPercentile {xs : List ℚ} {m : ℚ} (h : xs.min? = some m) {p : ℚ}
    (h0 : 0 ≤ p) (hp : p ≤ 100) : m ≤ npPercentile xs p := by
  rw [min?_eq_sorted_head h, ← npPercentile_zero]
  exact npPercentile_mono (min?_length_pos h) (le_refl 0) h0 hp

lemma max?_length_pos {xs : List ℚ} {m : ℚ} (h : xs.max? = some m) : 1 ≤ xs.length := by
  have hm := ((List.max?_eq_some_iff (fun a => le_refl a)
    (fun a b => max_choice a b) (fun a b c => max_le_iff)).mp h).1
  exact List.length_pos.mpr (List.ne_nil_of_mem hm)

lemma npPercentile_le_max {xs : List ℚ} {m : ℚ} (h : xs.max? = some m) {p : ℚ}
    (h0 : 0 ≤ p) (hp : p ≤ 100) : npPercentile xs p ≤ m := by
  rw [max?_eq_sorted_last h, ← npPercentile_hundred (max?_length_pos h)]
  exact npPercentile_mono (max?_length_pos h) h0 hp (le_refl 100)

/-! ## Risk-bucket counting lemmas -/

lemma countP_risk_partition (xs : List ℚ) :
    xs.countP (fun a => decide (a < 10000)) +
    xs.countP (fun a => decide (10000 ≤ a) && decide (a < 50000)) +
    xs.countP (fun a => decide (50000 ≤ a) && decide (a < 200000)) +
    xs.countP (fun a => decide (200000 ≤ a)) = xs.length := by
  induction xs with
  | nil => simp
  | cons a l ih =>
    simp only [List.countP_cons, List.length_cons]
    rcases lt_or_le a 10000 with h1 | h1
    · simp [h1, not_le.mpr h1, not_le.mpr (show a < 50000 by linarith),
        not_le.mpr (show a < 200000 by linarith)]
      omega
    · rcases lt_or_le a 50000 with h2 | h2
      · simp [not_lt.mpr h1, h1, h2, not_le.mpr h2,
          not_le.mpr (show a < 200000 by linarith)]
        omega
      · rcases lt_or_le a 200000 with h3 | h3
        · simp [not_lt.mpr h1, not_lt.mpr h2, h2, h3, not_le.mpr h3]
          omega
        · simp [not_lt.mpr h1, not_lt.mpr h2, not_lt.mpr h3, h3]
          omega

lemma length_uniformSamples (lo hi : ℚ) (n : ℕ) (u : ℕ → ℚ) (off : ℕ) :
    (uniformSamples lo hi n u off).length = n := by
  simp [uniformSamples]

lemma length_aleSamples (tr vr lr : ℚ × ℚ) (n : ℕ) (u : ℕ → ℚ) :
    (aleSamples tr vr lr n u).length = n := by
  simp [aleSamples, uniformSamples]

/-! ## Claim theorems -/

/-- C1: for every input record, the evaluator's metrics satisfy the FAIR
formula: LEF = TEF × vulnerability, ALE = LEF × loss magnitude, and
SLE = loss magnitude; the returned dict carries exactly these products
(rounded to the presentation precision at the boundary). -/
theorem fair_C1 (c : FAIRCalculator) :
    c.calculate_loss_event_frequency = c.threat_event_frequency * c.vulnerability ∧
    c.calculate_annual_loss_expectancy = c.calculate_loss_event_frequency * c.loss_magnitude ∧
    c.calculate_single_loss_expectancy = c.loss_magnitude ∧
    c.calculate.loss_event_frequency =
      pyRound 3 (c.threat_event_frequency * c.vulnerability) ∧
    c.calculate.annual_loss_expectancy =
      pyRound 2 (c.threat_event_frequency * c.vulnerability * c.loss_magnitude) ∧
    c.calculate.single_loss_expectancy = pyRound 2 c.loss_magnitude :=
  ⟨rfl, rfl, rfl, rfl, rfl, rfl⟩

/-- C2: the risk-level classification uses the strictly increasing
half-open thresholds 10,000 / 50,000 / 200,000 with the Low/Medium/High/
Critical labels, colors and priorities, and the six boundary inputs
9,999.99 / 10,000 / 49,999.99 / 50,000 / 199,999.99 / 200,000 classify as
Low / Medium / Medium / High / High / Critical. -/
theorem fair_C2 (ale : ℚ) :
    (FAIRCalculator.calculate_risk_level ale = ⟨"Low", "green", "P4"⟩ ↔ ale < 10000) ∧
    (FAIRCalculator.calculate_risk_level ale = ⟨"Medium", "yellow", "P3"⟩ ↔
      10000 ≤ ale ∧ ale < 50000) ∧
    (FAIRCalculator.calculate_risk_level ale = ⟨"High", "orange", "P2"⟩ ↔
      50000 ≤ ale ∧ ale < 200000) ∧
    (FAIRCalculator.calculate_risk_level ale = ⟨"Critical", "red", "P1"⟩ ↔ 200000 ≤ ale) ∧
    FAIRCalculator.calculate_risk_level (999999/100) = ⟨"Low", "green", "P4"⟩ ∧
    FAIRCalculator.calculate_risk_level 10000 = ⟨"Medium", "yellow", "P3"⟩ ∧
    FAIRCalculator.calculate_risk_level (4999999/100) = ⟨"Medium", "yellow", "P3"⟩ ∧
    FAIRCalculator.calculate_risk_level 50000 = ⟨"High", "orange", "P2"⟩ ∧
    FAIRCalculator.calculate_risk_level (19999999/100) = ⟨"High", "orange", "P2"⟩ ∧
    FAIRCalculator.calculate_risk_level 200000 = ⟨"Critical", "red", "P1"⟩ := by
  refine ⟨?_, ?_, ?_, ?_, by norm_num [FAIRCalculator.calculate_risk_level],
    by norm_num [FAIRCalculator.calculate_risk_level],
    by norm_num [FAIRCalculator.calculate_risk_level],
    by norm_num [FAIRCalculator.calculate_risk_level],
    by norm_num [FAIRCalculator.calculate_risk_level],
    by norm_num [FAIRCalculator.calculate_risk_level]⟩ <;>
    unfold FAIRCalculator.calculate_risk_level <;>
    split_ifs with hA hB hC <;> simp_all <;>
    first
      | linarith
      | (intro h; linarith)

/-- C6: `calculate_risk` in `app.py` rejects `asset_value = 0` — and every
non-positive asset value — with the invalid-argument error, and never
returns a metrics record for such input. -/
theorem app_C6 (asset_value tef vuln loss : ℚ) (h : asset_value ≤ 0) :
    calculate_risk asset_value tef vuln loss =
      Except.error "Asset value must be greater than 0" := by
  simp [calculate_risk, h]

/-- Witness for C6 at `asset_value = 0`. -/
theorem app_C6_witness :
    calculate_risk 0 6 (3/10) 75000 = Except.error "Asset value must be greater than 0" :=
  app_C6 0 6 (3/10) 75000 (by norm_num)

/-- C8: the evaluator's risk-exposure percentage is
`ALE / assetValue × 100` when the asset value is positive and `0`
otherwise, and the returned dict carries this value rounded to 2
decimals. -/
theorem fair_C8 (c : FAIRCalculator) :
    c.risk_exposure_pct =
      (if 0 < c.asset_value then
        c.threat_event_frequency * c.vulnerability * c.loss_magnitude / c.asset_value * 100
      else 0) ∧
    c.calculate.risk_exposure_percentage = pyRound 2 c.risk_exposure_pct :=
  ⟨rfl, rfl⟩

/-- C10: the classification is total over all of `ℚ`: every negative ALE
maps to Low/green/P4; in the simulator a negative sampled outcome is
counted in the low bucket and in no other bucket; and a negative ALE is
reachable through the evaluator from a negative threat-event frequency,
which the core does not reject. -/
theorem fair_C10 (ale : ℚ) (h : ale < 0) :
    FAIRCalculator.calculate_risk_level ale = ⟨"Low", "green", "P4"⟩ ∧
    (∀ xs : List ℚ,
      (ale :: xs).countP (fun a => decide (a < 10000)) =
        xs.countP (fun a => decide (a < 10000)) + 1 ∧
      (ale :: xs).countP (fun a => decide (10000 ≤ a) && decide (a < 50000)) =
        xs.countP (fun a => decide (10000 ≤ a) && decide (a < 50000)) ∧
      (ale :: xs).countP (fun a => decide (50000 ≤ a) && decide (a < 200000)) =
        xs.countP (fun a => decide (50000 ≤ a) && decide (a < 200000)) ∧
      (ale :: xs).countP (fun a => decide (200000 ≤ a)) =
        xs.countP (fun a => decide (200000 ≤ a))) ∧
    (∀ c : FAIRCalculator, c.threat_event_frequency < 0 → 0 < c.vulnerability →
      0 < c.loss_magnitude → c.calculate.risk_level = "Low") := by
  refine ⟨?_, ?_, ?_⟩
  · unfold FAIRCalculator.calculate_risk_level
    rw [if_pos (by linarith)]
  · intro xs
    refine ⟨?_, ?_, ?_, ?_⟩ <;>
      simp [List.countP_cons, h, not_le.mpr (show ale < 10000 by linarith),
        not_le.mpr (show ale < 50000 by linarith),
        not_le.mpr (show ale < 200000 by linarith)]
  · intro c htef hv hl
    have hale : c.calculate_annual_loss_expectancy < 0 :=
      mul_neg_of_neg_of_pos (mul_neg_of_neg_of_pos htef hv) hl
    show (FAIRCalculator.calculate_risk_level c.calculate_annual_loss_expectancy).level = "Low"
    unfold FAIRCalculator.calculate_risk_level
    rw [if_pos (by linarith)]

/-- Witness for C10 at `ale = -5` and a calculator with negative TEF. -/
theorem fair_C10_witness :
    FAIRCalculator.calculate_risk_level (-5) = ⟨"Low", "green", "P4"⟩ ∧
    ([(-5 : ℚ)].countP (fun a => decide (a < 10000)) = 1) ∧
    (FAIRCalculator.mk 1000 (-2) (1/2) 100).calculate.risk_level = "Low" := by
  obtain ⟨h1, h2, h3⟩ := fair_C10 (-5) (by norm_num)
  refine ⟨h1, ?_, h3 _ (by norm_num) (by norm_num) (by norm_num)⟩
  simpa using (h2 []).1

/-- C3: whenever the simulation returns a result, the four risk-bucket
counts sum exactly to the iteration count: the buckets partition all
sampled outcomes. -/
theorem fair_C3 (tr vr lr : ℚ × ℚ) (n : ℕ) (u : ℕ → ℚ) (r : SimResult)
    (h : FAIRCalculator.monte_carlo_simulation tr vr lr n u = some r) :
    r.low + r.medium + r.high + r.critical = n := by
  simp only [FAIRCalculator.monte_carlo_simulation] at h
  rcases hx : (aleSamples tr vr lr n u).min? with _ | mn <;> rw [hx] at h
  · simp at h
  rcases hy : (aleSamples tr vr lr n u).max? with _ | mx <;> rw [hy] at h
  · simp at h
  simp only [Option.some.injEq] at h
  subst h
  rw [countP_risk_partition, length_aleSamples]

/-- Witness for C3: a concrete 2-iteration simulation whose bucket counts
sum to 2. -/
theorem fair_C3_witness :
    (FAIRCalculator.monte_carlo_simulation (1, 2) (0, 1) (100, 200) 2 (fun _ => 1/2)).elim 0
      (fun r => r.low + r.medium + r.high + r.critical) = 2 := by
  rcases hx : FAIRCalculator.monte_carlo_simulation (1, 2) (0, 1) (100, 200) 2
    (fun _ => 1/2) with _ | r
  · exact absurd hx (by with_unfolding_all decide)
  · exact fair_C3 (1, 2) (0, 1) (100, 200) 2 (fun _ => 1/2) r hx

/-- C4: whenever the simulation returns a result, its reported statistics
are ordered: min ≤ 10th ≤ 25th ≤ 50th ≤ 75th ≤ 90th ≤ 95th ≤ 99th
percentile ≤ max. -/
theorem fair_C4 (tr vr lr : ℚ × ℚ) (n : ℕ) (u : ℕ → ℚ) (r : SimResult)
    (h : FAIRCalculator.monte_carlo_simulation tr vr lr n u = some r) :
    r.min_ale ≤ r.p10 ∧ r.p10 ≤ r.p25 ∧ r.p25 ≤ r.p50 ∧ r.p50 ≤ r.p75 ∧
    r.p75 ≤ r.p90 ∧ r.p90 ≤ r.p95 ∧ r.p95 ≤ r.p99 ∧ r.p99 ≤ r.max_ale := by
  simp only [FAIRCalculator.monte_carlo_simulation] at h
  rcases hx : (aleSamples tr vr lr n u).min? with _ | mn <;> rw [hx] at h
  · simp at h
  rcases hy : (aleSamples tr vr lr n u).max? with _ | mx <;> rw [hy] at h
  · simp at h
  simp only [Option.some.injEq] at h
  subst h
  have hlen := min?_length_pos hx
  refine ⟨pyRound_mono 2 (min_le_npPercentile hx (by norm_num) (by norm_num)),
    pyRound_mono 2 (npPercentile_mono hlen (by norm_num) (by norm_num) (by norm_num)),
    pyRound_mono 2 (npPercentile_mono hlen (by norm_num) (by norm_num) (by norm_num)),
    pyRound_mono 2 (npPercentile_mono hlen (by norm_num) (by norm_num) (by norm_num)),
    pyRound_mono 2 (npPercentile_mono hlen (by norm_num) (by norm_num) (by norm_num)),
    pyRound_mono 2 (npPercentile_mono hlen (by norm_num) (by norm_num) (by norm_num)),
    pyRound_mono 2 (npPercentile_mono hlen (by norm_num) (by norm_num) (by norm_num)),
    pyRound_mono 2 (npPercentile_le_max hy (by norm_num) (by norm_num))⟩

/-- Witness for C4: a concrete 1-iteration simulation whose reported
statistics are ordered. -/
theorem fair_C4_witness :
    (FAIRCalculator.monte_carlo_simulation (0, 1) (0, 1) (0, 10000) 1 (fun _ => 1/2)).elim
      False (fun r =>
        r.min_ale ≤ r.p10 ∧ r.p10 ≤ r.p25 ∧ r.p25 ≤ r.p50 ∧ r.p50 ≤ r.p75 ∧
        r.p75 ≤ r.p90 ∧ r.p90 ≤ r.p95 ∧ r.p95 ≤ r.p99 ∧ r.p99 ≤ r.max_ale) := by
  rcases hx : FAIRCalculator.monte_carlo_simulation (0, 1) (0, 1) (0, 10000) 1
    (fun _ => 1/2) with _ | r
  · exact absurd hx (by with_unfolding_all decide)
  · exact fair_C4 (0, 1) (0, 1) (0, 10000) 1 (fun _ => 1/2) r hx

/-- C5 counterexample: an inverted threat-event-frequency range
(`tef_min = 5 > 1 = tef_max`) is not rejected: the simulation runs to
completion and returns a full result, so no invalid-argument failure
occurs. -/
theorem sim_C5_counterexample :
    (FAIRCalculator.monte_carlo_simulation (5, 1) (0, 1) (100, 200) 2
      (fun _ => 1/2)).isSome = true := by
  with_unfolding_all decide

/-- C5 (amended): `monte_carlo_simulation` performs no argument
validation.  It fails only when `iterations = 0` — and then not before
sampling, but at the reduction step (`np.min` of the empty sample vector
raises `ValueError`, embedded as `none`); for every `iterations ≥ 1` it
returns a full result, inverted ranges included. -/
theorem sim_C5 (tr vr lr : ℚ × ℚ) (n : ℕ) (u : ℕ → ℚ) :
    (FAIRCalculator.monte_carlo_simulation tr vr lr n u).isSome = true ↔ 1 ≤ n := by
  have hlen := length_aleSamples tr vr lr n u
  simp only [FAIRCalculator.monte_carlo_simulation]
  rcases hx : (aleSamples tr vr lr n u).min? with _ | mn
  · have : aleSamples tr vr lr n u = [] := List.min?_eq_none_iff.mp hx
    rw [this] at hlen
    simp at hlen
    simp [hlen]
  · rcases hy : (aleSamples tr vr lr n u).max? with _ | mx
    · have h1 := min?_length_pos hx
      have : aleSamples tr vr lr n u = [] := List.max?_eq_none_iff.mp hy
      rw [this] at h1
      simp at h1
    · have h1 := min?_length_pos hx
      rw [hlen] at h1
      simp [h1]

/-- C7 counterexample: `monte_carlo_simulation` has no seed parameter —
it reads the process-global numpy generator — so two runs on the same
arguments see different segments of the global random stream, and here
two such stream segments produce different results. -/
theorem sim_C7_counterexample :
    FAIRCalculator.monte_carlo_simulation (0, 1) (0, 1) (0, 1) 1 (fun _ => 0) ≠
    FAIRCalculator.monte_carlo_simulation (0, 1) (0, 1) (0, 1) 1 (fun _ => 1/2) := by
  with_unfolding_all decide

lemma uniformSamples_congr (lo hi : ℚ) (n : ℕ) {u v : ℕ → ℚ} (off : ℕ)
    (h : ∀ i < n, u (off + i) = v (off + i)) :
    uniformSamples lo hi n u off = uniformSamples lo hi n v off := by
  unfold uniformSamples
  apply List.map_congr_left
  intro i hi
  rw [List.mem_range] at hi
  rw [h i hi]

lemma aleSamples_congr (tr vr lr : ℚ × ℚ) (n : ℕ) {u v : ℕ → ℚ}
    (h : ∀ i < 3 * n, u i = v i) :
    aleSamples tr vr lr n u = aleSamples tr vr lr n v := by
  unfold aleSamples
  rw [uniformSamples_congr tr.1 tr.2 n 0 (fun i hi => h (0 + i) (by omega)),
    uniformSamples_congr vr.1 vr.2 n n (fun i hi => h (n + i) (by omega)),
    uniformSamples_congr lr.1 lr.2 n (2 * n) (fun i hi => h (2 * n + i) (by omega))]

/-- C7 (amended): the simulation has no seed argument and draws from the
global generator; its result is a function of the arguments and of the
`3·iterations` random draws it consumes, only.  Two runs that see the
same draws return bit-for-bit identical results (while two runs that see
different segments of the global stream may differ, as
the counterexample shows). -/
theorem sim_C7 (tr vr lr : ℚ × ℚ) (n : ℕ) (u v : ℕ → ℚ)
    (h : ∀ i < 3 * n, u i = v i) :
    FAIRCalculator.monte_carlo_simulation tr vr lr n u =
    FAIRCalculator.monte_carlo_simulation tr vr lr n v := by
  delta FAIRCalculator.monte_carlo_simulation
  rw [aleSamples_congr tr vr lr n h]

/-- Witness for C7: two streams that agree on the three consumed draws
(but differ from index 3 on) yield identical simulation results. -/
theorem sim_C7_witness :
    FAIRCalculator.monte_carlo_simulation (0, 1) (0, 1) (0, 1) 1 (fun _ => 0) =
    FAIRCalculator.monte_carlo_simulation (0, 1) (0, 1) (0, 1) 1
      (fun i => if i < 3 then 0 else 7) := by
  apply sim_C7
  intro i hi
  show (0:ℚ) = if i < 3 then 0 else 7
  rw [if_pos (show i < 3 by omega)]

/-! ## Degenerate (constant-interval) sampling lemmas -/

lemma uniformSamples_const (c : ℚ) (n : ℕ) (u : ℕ → ℚ) (off : ℕ) :
    uniformSamples c c n u off = List.replicate n c := by
  unfold uniformSamples
  rw [sub_self]
  simp

lemma zipWith_mul_replicate (a b : ℚ) (n : ℕ) :
    List.zipWith (· * ·) (List.replicate n a) (List.replicate n b) =
      List.replicate n (a * b) := by
  induction n with
  | zero => rfl
  | succ k ih => simp [List.replicate_succ, ih]

lemma aleSamples_const (a b c : ℚ) (n : ℕ) (u : ℕ → ℚ) :
    aleSamples (a, a) (b, b) (c, c) n u = List.replicate n (a * b * c) := by
  simp [aleSamples, uniformSamples_const, zipWith_mul_replicate]

lemma sorted_replicate (n : ℕ) (a : ℚ) : List.Sorted (· ≤ ·) (List.replicate n a) :=
  List.pairwise_replicate.mpr (Or.inr (le_refl a))

lemma min?_replicate {n : ℕ} (hn : 1 ≤ n) (a : ℚ) :
    (List.replicate n a).min? = some a := by
  apply (List.min?_eq_some_iff (fun x => le_refl x)
    (fun x y => min_choice x y) (fun x y z => le_min_iff)).mpr
  refine ⟨List.mem_replicate.mpr ⟨by omega, rfl⟩, ?_⟩
  intro b hb
  rw [(List.mem_replicate.mp hb).2]

lemma max?_replicate {n : ℕ} (hn : 1 ≤ n) (a : ℚ) :
    (List.replicate n a).max? = some a := by
  apply (List.max?_eq_some_iff (fun x => le_refl x)
    (fun x y => max_choice x y) (fun x y z => max_le_iff)).mpr
  refine ⟨List.mem_replicate.mpr ⟨by omega, rfl⟩, ?_⟩
  intro b hb
  rw [(List.mem_replicate.mp hb).2]

lemma npMean_replicate {n : ℕ} (hn : 1 ≤ n) (a : ℚ) :
    npMean (List.replicate n a) = a := by
  unfold npMean
  rw [List.sum_replicate, List.length_replicate, nsmul_eq_mul]
  have hne : (n:ℚ) ≠ 0 := by
    have hpos : (0:ℚ) < n := by exact_mod_cast hn
    exact hpos.ne'
  exact mul_div_cancel_left₀ a hne

lemma getD_replicate {n i : ℕ} (h : i < n) (a : ℚ) :
    (List.replicate n a).getD i 0 = a := by
  rw [getD_eq_getElem (by simpa using h), List.getElem_replicate]

lemma npPercentile_replicate {n : ℕ} (hn : 1 ≤ n) (a : ℚ) {p : ℚ}
    (h0 : 0 ≤ p) (hp : p ≤ 100) : npPercentile (List.replicate n a) p = a := by
  unfold npPercentile
  rw [(sorted_replicate n a).insertionSort_eq, List.length_replicate]
  set h : ℚ := ((n : ℚ) - 1) * p / 100 with hdef
  have hl1 : (1:ℚ) ≤ (n : ℚ) := by exact_mod_cast hn
  have hq0 : 0 ≤ h := by
    rw [hdef]
    have hnn : (0:ℚ) ≤ (n : ℚ) - 1 := by linarith
    exact div_nonneg (mul_nonneg hnn h0) (by norm_num)
  have hq1 : h ≤ (n : ℚ) - 1 := by
    rw [hdef, div_le_iff₀ (by norm_num : (0:ℚ) < 100)]
    nlinarith
  have hfl0 : 0 ≤ ⌊h⌋ := Int.le_floor.mpr (by exact_mod_cast hq0)
  have hfl1 : ⌊h⌋ ≤ (n : ℤ) - 1 := by simpa using Int.floor_le_floor hq1
  simp only [interpAt, List.length_replicate]
  rw [getD_replicate (by omega) a, getD_replicate (by omega) a]
  ring

lemma npVar_replicate {n : ℕ} (hn : 1 ≤ n) (a : ℚ) :
    npVar (List.replicate n a) = 0 := by
  unfold npVar
  rw [npMean_replicate hn, List.map_replicate, sub_self, zero_pow (by norm_num),
    npMean_replicate hn]

lemma countP_replicate (n : ℕ) (a : ℚ) (p : ℚ → Bool) :
    (List.replicate n a).countP p = if p a then n else 0 := by
  induction n with
  | zero => simp
  | succ k ih =>
    rw [List.replicate_succ, List.countP_cons, ih]
    by_cases hp : p a <;> simp [hp]

/-- C9: the degenerate simulation with constant ranges
`tefRange = (5,5)`, `vulnRange = (0.5,0.5)`, `lossRange = (20000,20000)`
produces, for every iteration count `N ≥ 1` and every random stream:
every sampled outcome equal to `5 × 0.5 × 20000 = 50,000`; mean, median,
min, max and every reported percentile equal to 50,000; standard
deviation 0; and all `N` samples counted in the High bucket. -/
theorem sim_C9 (n : ℕ) (hn : 1 ≤ n) (u : ℕ → ℚ) :
    aleSamples (5, 5) (1/2, 1/2) (20000, 20000) n u = List.replicate n 50000 ∧
    FAIRCalculator.monte_carlo_simulation (5, 5) (1/2, 1/2) (20000, 20000) n u =
      some { iterations := n, mean_ale := 50000, median_ale := 50000,
             min_ale := 50000, max_ale := 50000,
             p10 := 50000, p25 := 50000, p50 := 50000, p75 := 50000,
             p90 := 50000, p95 := 50000, p99 := 50000,
             low := 0, medium := 0, high := n, critical := 0,
             conf_lower := 50000, conf_upper := 50000 } ∧
    monteStdDev (5, 5) (1/2, 1/2) (20000, 20000) n u = 0 := by
  have hale : aleSamples (5, 5) (1/2, 1/2) (20000, 20000) n u = List.replicate n 50000 := by
    rw [aleSamples_const]
    norm_num
  have h50 : pyRound 2 (50000 : ℚ) = 50000 := by norm_num [pyRound, rhe]
  refine ⟨hale, ?_, ?_⟩
  · delta FAIRCalculator.monte_carlo_simulation
    rw [hale]
    simp only [min?_replicate hn, max?_replicate hn]
    have hP : ∀ p : ℚ, 0 ≤ p → p ≤ 100 →
        npPercentile (List.replicate n (50000:ℚ)) p = 50000 :=
      fun p h0 h1 => npPercentile_replicate hn 50000 h0 h1
    rw [npMean_replicate hn, hP 50 (by norm_num) (by norm_num),
      hP 10 (by norm_num) (by norm_num), hP 25 (by norm_num) (by norm_num),
      hP 75 (by norm_num) (by norm_num), hP 90 (by norm_num) (by norm_num),
      hP 95 (by norm_num) (by norm_num), hP 99 (by norm_num) (by norm_num),
      hP (5/2) (by norm_num) (by norm_num), hP (195/2) (by norm_num) (by norm_num),
      h50, countP_replicate, countP_replicate, countP_replicate, countP_replicate]
    norm_num
  · unfold monteStdDev
    rw [hale, npVar_replicate hn]
    simp

/-- Witness for C9 at `N = 1`: the single outcome is 50,000 and the
standard deviation is 0. -/
theorem sim_C9_witness :
    aleSamples (5, 5) (1/2, 1/2) (20000, 20000) 1 (fun _ => 0) = [(50000 : ℚ)] ∧
    monteStdDev (5, 5) (1/2, 1/2) (20000, 20000) 1 (fun _ => 0) = 0 ∧
    (FAIRCalculator.monte_carlo_simulation (5, 5) (1/2, 1/2) (20000, 20000) 1
      (fun _ => 0)).isSome = true := by
  obtain ⟨h1, h2, h3⟩ := sim_C9 1 (by norm_num) (fun _ => 0)
  exact ⟨by simpa using h1, h3, by rw [h2]; rfl⟩
